import Mathlib

/-!
Shallow embedding of `sway-boomer` (`src/main.rs`), a screen-magnifier
overlay: the interactive viewport state (scale, offset, pointer position,
highlight flag, drag tracking), the input event handlers registered in
`activate`, the draw closure, and the focused-output selection in `main`.

Rust `f64` values are modelled as rationals; the `as i32` casts in the draw
closure are modelled as truncation toward zero with saturation at the `i32`
bounds, matching Rust `as` semantics.
-/

namespace SwayBoomer

/-- Keycode of the quit key (`QUIT_KEY` in `main.rs`). -/
def QUIT_KEY : ℕ := 9

/-- Keycode of the highlight key (`HIGHLIGHT_KEY` in `main.rs`). -/
def HIGHLIGHT_KEY : ℕ := 50

/-- Scroll step for the scale (`SCALE_DELTA = 0.1`). -/
def SCALE_DELTA : ℚ := 1/10

/-- Upper clamp for the scale (`SCALE_MAX = 3.0`). -/
def SCALE_MAX : ℚ := 3

/-- Background color triple (`BACKGROUND = (0.1, 0.1, 0.1)`). -/
def BACKGROUND : ℚ × ℚ × ℚ := (1/10, 1/10, 1/10)

/-- Radius of the highlight disc (`HIGHLIGHT_RADIUS = 70.0`). -/
def HIGHLIGHT_RADIUS : ℚ := 70

/-- Highlight RGBA (`HIGHLIGHT_STYLE = (1.0, 1.0, 1.0, 0.4)`). -/
def HIGHLIGHT_STYLE : ℚ × ℚ × ℚ × ℚ := (1, 1, 1, 2/5)

/-- The `ImageState` struct of `main.rs`: the shared mutable cells read by the
draw closure and written by the input handlers. -/
structure ImageState where
  scale : ℚ
  offset : ℚ × ℚ
  mouse_pos : ℚ × ℚ
  highlight : Bool
deriving DecidableEq, Repr

/-- The full mutable state of the running session: the `ImageState` cells plus
the `static mut LAST_POS : Option<(f64, f64)>` drag-tracking global. -/
structure AppState where
  img : ImageState
  lastPos : Option (ℚ × ℚ)
deriving DecidableEq, Repr

/-- Scroll directions distinguished by the scroll handler; `other` stands for
every `ScrollDirection` that falls into the `_ => {}` arm. -/
inductive ScrollDir where
  | up
  | down
  | other
deriving DecidableEq, Repr

/-- Raw input events as delivered by GTK to the handlers registered in
`activate`. A motion event carries the pointer position and whether
`BUTTON1_MASK` is set in its modifier state. A button-release event carries
the button number, which the registered handler ignores. There is no
button-press handler in the program. -/
inductive Event where
  | keyPress (keycode : Option ℕ)
  | keyRelease (keycode : Option ℕ)
  | scroll (dir : ScrollDir)
  | motion (pos : ℚ × ℚ) (button1Mask : Bool)
  | buttonRelease (button : ℕ)
deriving DecidableEq, Repr

/-- One input event applied to the session state, following the five handlers
in `activate` (`main.rs` lines 114-174). `app.quit()` and
`glarea.queue_render()` are external calls that do not touch this state. -/
def step (a : AppState) : Event → AppState
  | .keyPress keycode =>
      match keycode with
      | some k =>
          if k = QUIT_KEY then a
          else if k = HIGHLIGHT_KEY then
            { a with img := { a.img with highlight := true } }
          else a
      | none => a
  | .keyRelease keycode =>
      if keycode = some HIGHLIGHT_KEY then
        { a with img := { a.img with highlight := false } }
      else a
  | .scroll dir =>
      match dir with
      | .up =>
          { a with img := { a.img with
              scale := min (a.img.scale + SCALE_DELTA) SCALE_MAX } }
      | .down =>
          { a with img := { a.img with
              scale := max (a.img.scale - SCALE_DELTA) SCALE_DELTA } }
      | .other => a
  | .motion pos mask =>
      -- `state.mouse_pos.set(pos)` happens first, unconditionally.
      if mask then
        match a.lastPos with
        | some lp =>
            { img := { a.img with
                mouse_pos := pos,
                offset := (a.img.offset.1 + lp.1 - pos.1,
                           a.img.offset.2 + lp.2 - pos.2) },
              lastPos := some pos }
        | none =>
            { img := { a.img with mouse_pos := pos }, lastPos := some pos }
      else
        { a with img := { a.img with mouse_pos := pos } }
  | .buttonRelease _ => { a with lastPos := none }

/-- Process a list of events in arrival order. -/
def run (a : AppState) (evts : List Event) : AppState := evts.foldl step a

/-- The initial `ImageState` built in `activate`. -/
def initImageState : ImageState :=
  { scale := 1, offset := (0, 0), mouse_pos := (0, 0), highlight := false }

/-- The initial session state: default `ImageState`, `LAST_POS = None`. -/
def initApp : AppState := { img := initImageState, lastPos := none }

/-- World-level events: like `Event`, but motion does not carry a modifier
mask (the mask is derived from the actual button state), and button presses
appear explicitly. Button 1 is the primary button. -/
inductive WEvent where
  | keyPress (keycode : Option ℕ)
  | keyRelease (keycode : Option ℕ)
  | scroll (dir : ScrollDir)
  | motion (pos : ℚ × ℚ)
  | buttonPress (button : ℕ)
  | buttonRelease (button : ℕ)
deriving DecidableEq, Repr

/-- Session state paired with the physical primary-button state, used to
relate `LAST_POS` to whether button 1 is currently held. -/
structure World where
  app : AppState
  button1Held : Bool
deriving DecidableEq, Repr

/-- World-level step: the program registers no button-press handler, so a
press changes only the physical button state; a motion event reaches the
handler with `BUTTON1_MASK` reflecting the physical state; a release of any
button reaches the release handler (which clears `LAST_POS` regardless of
the button). -/
def worldStep (w : World) : WEvent → World
  | .keyPress k => { w with app := step w.app (.keyPress k) }
  | .keyRelease k => { w with app := step w.app (.keyRelease k) }
  | .scroll d => { w with app := step w.app (.scroll d) }
  | .motion pos => { w with app := step w.app (.motion pos w.button1Held) }
  | .buttonPress b =>
      { w with button1Held := if b = 1 then true else w.button1Held }
  | .buttonRelease b =>
      { app := step w.app (.buttonRelease b),
        button1Held := if b = 1 then false else w.button1Held }

/-- Process world-level events in arrival order. -/
def worldRun (w : World) (evts : List WEvent) : World := evts.foldl worldStep w

/-- Initial world: default state, primary button not held. -/
def initWorld : World := { app := initApp, button1Held := false }

/-! ### Renderer (the `connect_draw` closure) -/

/-- A pixbuf, reduced to its dimensions (GDK stores them as C `int`). -/
structure Pixbuf where
  width : ℤ
  height : ℤ
deriving DecidableEq, Repr

/-- Smallest `i32`. -/
def i32Min : ℤ := -2147483648

/-- Largest `i32`. -/
def i32Max : ℤ := 2147483647

/-- Rust `as i32` applied to an `f64`: truncation toward zero, saturating at
the `i32` bounds. -/
def f64AsI32 (q : ℚ) : ℤ :=
  max i32Min (min i32Max (if 0 ≤ q then ⌊q⌋ else -⌊-q⌋))

/-- Dimensions of the pixbuf produced by
`source_pixbuf.scale_simple((w as f64 * scale) as i32, (h as f64 * scale) as i32, Nearest)`
when it succeeds. -/
def scaleSimpleDims (pb : Pixbuf) (scale : ℚ) : Pixbuf :=
  { width := f64AsI32 ((pb.width : ℚ) * scale),
    height := f64AsI32 ((pb.height : ℚ) * scale) }

/-- The pre-pan blit position computed in the draw closure (`main.rs` lines
86-93). Note the source: `pb_height` and `new_pb_height` are both assigned
from `.width()`, so the `y` term is computed from the widths. -/
def blitBase (source_pixbuf new_pb : Pixbuf) : ℚ × ℚ :=
  let pb_width : ℚ := (source_pixbuf.width : ℚ)
  let pb_height : ℚ := (source_pixbuf.width : ℚ)
  let new_pb_width : ℚ := (new_pb.width : ℚ)
  let new_pb_height : ℚ := (new_pb.width : ℚ)
  (-(new_pb_width - pb_width) / 2, -(new_pb_height - pb_height) / 2)

/-- The position actually passed to `set_source_pixbuf`: the pre-pan blit
position minus the pan offset (`x - xpos`, `y - ypos`). -/
def blitPosition (source_pixbuf new_pb : Pixbuf) (st : ImageState) : ℚ × ℚ :=
  ((blitBase source_pixbuf new_pb).1 - st.offset.1,
   (blitBase source_pixbuf new_pb).2 - st.offset.2)

/-- One cairo drawing operation issued by the draw closure. The arc in the
code runs from angle `0` to `TAU`, i.e. a full circle, so the angles are not
recorded. -/
inductive DrawOp where
  | setSourceRGBA (r g b a : ℚ)
  | paintOp
  | setSourcePixbuf (pb : Pixbuf) (x y : ℚ)
  | arc (cx cy radius : ℚ)
  | fillOp
deriving DecidableEq, Repr

/-- The draw closure (`main.rs` lines 78-112) as the list of cairo operations
it issues. `scaled` is the result of the `scale_simple` call, `none` when
resampling fails; everything, including the background fill, sits inside the
`if let Some(new_pb)` in the source. The background `set_source_rgba` call
passes `BACKGROUND.1` for both the green and blue channels, as the source
does. -/
def connectDraw (source_pixbuf : Pixbuf) (st : ImageState)
    (scaled : Option Pixbuf) : List DrawOp :=
  match scaled with
  | some new_pb =>
      [DrawOp.setSourceRGBA BACKGROUND.1 BACKGROUND.2.1 BACKGROUND.2.1 1,
       DrawOp.paintOp,
       DrawOp.setSourcePixbuf new_pb
         (blitPosition source_pixbuf new_pb st).1
         (blitPosition source_pixbuf new_pb st).2,
       DrawOp.paintOp] ++
      (if st.highlight then
        [DrawOp.setSourceRGBA HIGHLIGHT_STYLE.1 HIGHLIGHT_STYLE.2.1
           HIGHLIGHT_STYLE.2.2.1 HIGHLIGHT_STYLE.2.2.2,
         DrawOp.arc st.mouse_pos.1 st.mouse_pos.2 HIGHLIGHT_RADIUS,
         DrawOp.fillOp]
       else [])
  | none => []

/-- The blit position as the spec's centering formula states it:
`x = -(scaled_width - source_width) / 2`, `y = -(scaled_height - source_height) / 2`
with `scaled_width = source_width * scale` and
`scaled_height = source_height * scale`. Used only to compare the source's
computation against the spec's words. -/
def specBlitBase (src : Pixbuf) (scale : ℚ) : ℚ × ℚ :=
  (-((src.width : ℚ) * scale - (src.width : ℚ)) / 2,
   -((src.height : ℚ) * scale - (src.height : ℚ)) / 2)

/-! ### Startup output selection (`main`) -/

/-- One entry of the parsed `swaymsg -t get_outputs -r` JSON. -/
structure Output where
  name : String
  focused : Bool
deriving DecidableEq, Repr

/-- The error enum of `main.rs`; `noOutput` is `Error::NoOutput`. -/
inductive StartupError where
  | ioErr
  | jsonErr
  | noOutput
deriving DecidableEq, Repr

/-- The output-selection step of `main` (`main.rs` lines 197-209): keep the
names of focused outputs, take the first, fail with `Error::NoOutput` when
there is none. -/
def selectFocusedOutput (outs : List Output) :
    Except StartupError String :=
  match (outs.filterMap (fun o =>
      match o.focused with
      | true => some o.name
      | false => none)).head? with
  | some n => Except.ok n
  | none => Except.error StartupError.noOutput

/-- Process exit code for `fn main() -> Result<(), Error>`: returning `Err`
makes the process exit nonzero (code 1), `Ok` exits with 0. -/
def exitCodeOf : Except StartupError String → ℕ
  | .ok _ => 0
  | .error _ => 1

/-! ### Shared lemmas -/

/-- One event keeps the scale inside `[SCALE_DELTA, SCALE_MAX]`. -/
lemma scale_bounds_step (a : AppState) (e : Event)
    (h1 : SCALE_DELTA ≤ a.img.scale) (h2 : a.img.scale ≤ SCALE_MAX) :
    SCALE_DELTA ≤ (step a e).img.scale ∧ (step a e).img.scale ≤ SCALE_MAX := by
  cases e with
  | keyPress keycode =>
      cases keycode with
      | none => exact ⟨h1, h2⟩
      | some k =>
          simp only [step]
          split
          · exact ⟨h1, h2⟩
          · split
            · exact ⟨h1, h2⟩
            · exact ⟨h1, h2⟩
  | keyRelease keycode =>
      simp only [step]
      split
      · exact ⟨h1, h2⟩
      · exact ⟨h1, h2⟩
  | scroll dir =>
      cases dir with
      | up =>
          have hd : (0 : ℚ) ≤ SCALE_DELTA := by norm_num [SCALE_DELTA]
          simp only [step]
          refine ⟨le_min (by linarith) (by norm_num [SCALE_DELTA, SCALE_MAX]),
            min_le_right _ _⟩
      | down =>
          have hd : (0 : ℚ) ≤ SCALE_DELTA := by norm_num [SCALE_DELTA]
          simp only [step]
          refine ⟨le_max_right _ _,
            max_le (by linarith) (by norm_num [SCALE_DELTA, SCALE_MAX])⟩
      | other => exact ⟨h1, h2⟩
  | motion pos mask =>
      simp only [step]
      split
      · split <;> exact ⟨h1, h2⟩
      · exact ⟨h1, h2⟩
  | buttonRelease b => exact ⟨h1, h2⟩

/-- Any event sequence keeps the scale inside `[SCALE_DELTA, SCALE_MAX]`. -/
lemma scale_bounds_run (evts : List Event) (a : AppState)
    (h1 : SCALE_DELTA ≤ a.img.scale) (h2 : a.img.scale ≤ SCALE_MAX) :
    SCALE_DELTA ≤ (run a evts).img.scale ∧ (run a evts).img.scale ≤ SCALE_MAX := by
  induction evts generalizing a with
  | nil => exact ⟨h1, h2⟩
  | cons e es ih =>
      have hs := scale_bounds_step a e h1 h2
      exact ih (step a e) hs.1 hs.2

/-- Closed form for repeated scroll-up events: each step takes
`min (scale + SCALE_DELTA) SCALE_MAX`, so `n + 1` steps take
`min (scale + (n+1) * SCALE_DELTA) SCALE_MAX`. -/
lemma scroll_up_replicate (n : ℕ) (a : AppState) :
    (run a (List.replicate (n+1) (Event.scroll ScrollDir.up))).img.scale
      = min (a.img.scale + ((n : ℚ) + 1) * SCALE_DELTA) SCALE_MAX := by
  induction n generalizing a with
  | zero =>
      show (step a (Event.scroll ScrollDir.up)).img.scale = _
      simp [step]
  | succ n ih =>
      have hrep : List.replicate (n+2) (Event.scroll ScrollDir.up)
          = Event.scroll ScrollDir.up
            :: List.replicate (n+1) (Event.scroll ScrollDir.up) := rfl
      rw [hrep]
      show (run (step a (Event.scroll ScrollDir.up))
        (List.replicate (n+1) (Event.scroll ScrollDir.up))).img.scale = _
      rw [ih]
      have hstep : (step a (Event.scroll ScrollDir.up)).img.scale
          = min (a.img.scale + SCALE_DELTA) SCALE_MAX := rfl
      rw [hstep, ← min_add_add_right, min_assoc]
      have hM : min (SCALE_MAX + ((n : ℚ) + 1) * SCALE_DELTA) SCALE_MAX
          = SCALE_MAX := by
        refine min_eq_right (le_add_of_nonneg_right ?_)
        rw [SCALE_DELTA]
        positivity
      rw [hM]
      congr 1
      push_cast
      ring

/-- A motion event with the primary-button mask set, while a drag anchor is
present, records the new pointer position, accumulates the anchor-to-pointer
delta into the offset, and moves the anchor to the new position. -/
lemma step_motion_some (a : AppState) (p lp : ℚ × ℚ)
    (h : a.lastPos = some lp) :
    step a (Event.motion p true)
      = ⟨⟨a.img.scale,
          (a.img.offset.1 + lp.1 - p.1, a.img.offset.2 + lp.2 - p.2),
          p, a.img.highlight⟩, some p⟩ := by
  simp [step, h]

/-- A motion event with the primary-button mask set but no drag anchor only
records the pointer position and establishes the anchor. -/
lemma step_motion_none (a : AppState) (p : ℚ × ℚ) (h : a.lastPos = none) :
    step a (Event.motion p true)
      = { img := { a.img with mouse_pos := p }, lastPos := some p } := by
  simp [step, h]

/-- Offset and anchor after a run of button-held motion events: the offset
accumulates anchor-minus-position deltas, which telescope to the first-to-last
displacement, and the anchor ends at the last position. -/
lemma run_motion_accum (ps : List (ℚ × ℚ)) (a : AppState) (prev : ℚ × ℚ)
    (h : a.lastPos = some prev) :
    (run a (ps.map (fun q => Event.motion q true))).img.offset.1
        = a.img.offset.1 + prev.1 - (ps.getLastD prev).1 ∧
    (run a (ps.map (fun q => Event.motion q true))).img.offset.2
        = a.img.offset.2 + prev.2 - (ps.getLastD prev).2 ∧
    (run a (ps.map (fun q => Event.motion q true))).lastPos
        = some (ps.getLastD prev) := by
  induction ps generalizing a prev with
  | nil =>
      refine ⟨?_, ?_, ?_⟩
      · show a.img.offset.1 = a.img.offset.1 + prev.1 - prev.1
        ring
      · show a.img.offset.2 = a.img.offset.2 + prev.2 - prev.2
        ring
      · show a.lastPos = some prev
        exact h
  | cons q qs ih =>
      have hrun : run a ((q :: qs).map (fun r => Event.motion r true))
          = run (step a (Event.motion q true))
              (qs.map (fun r => Event.motion r true)) := rfl
      rw [hrun, step_motion_some a q prev h]
      have hih := ih ⟨⟨a.img.scale,
          (a.img.offset.1 + prev.1 - q.1, a.img.offset.2 + prev.2 - q.2),
          q, a.img.highlight⟩, some q⟩ q rfl
      rw [List.getLastD_cons]
      refine ⟨?_, ?_, hih.2.2⟩
      · rw [hih.1]; ring
      · rw [hih.2.1]; ring

/-- With the primary button held, a run of world-level motion events is the
handler-level run of motion events whose `BUTTON1_MASK` is set. -/
lemma worldRun_motion_map (ps : List (ℚ × ℚ)) (w : World)
    (hheld : w.button1Held = true) :
    worldRun w (ps.map WEvent.motion)
      = { app := run w.app (ps.map (fun q => Event.motion q true)),
          button1Held := true } := by
  induction ps generalizing w with
  | nil =>
      cases w with
      | mk app held =>
          simp only at hheld
          subst hheld
          rfl
  | cons q qs ih =>
      have h1 : worldRun w ((q :: qs).map WEvent.motion)
          = worldRun (worldStep w (WEvent.motion q)) (qs.map WEvent.motion) := rfl
      have h2 : worldStep w (WEvent.motion q)
          = { app := step w.app (Event.motion q true),
              button1Held := true } := by
        simp [worldStep, hheld]
      rw [h1, h2,
        ih ⟨step w.app (Event.motion q true), true⟩ rfl]
      rfl

/-! ### Claims -/

/-- C3: for every sequence of input events applied to a state whose scale
starts in `[0.1, 3.0]` (including the default `1.0`), the scale after
processing the events remains in `[0.1, 3.0]` and in particular is never
exactly `0`. -/
theorem scale_always_clamped (evts : List Event) (a : AppState)
    (h1 : 1/10 ≤ a.img.scale) (h2 : a.img.scale ≤ 3) :
    1/10 ≤ (run a evts).img.scale ∧ (run a evts).img.scale ≤ 3 ∧
      (run a evts).img.scale ≠ 0 := by
  have h1' : SCALE_DELTA ≤ a.img.scale := by rw [SCALE_DELTA]; exact h1
  have h2' : a.img.scale ≤ SCALE_MAX := by rw [SCALE_MAX]; exact h2
  have h := scale_bounds_run evts a h1' h2'
  rw [SCALE_DELTA] at h
  rw [SCALE_MAX] at h
  refine ⟨h.1, h.2, ?_⟩
  intro h0
  rw [h0] at h
  norm_num at h

/-- Witness for C3: the hypotheses hold at the default state and the
conclusion is checked after one scroll-down event. -/
theorem scale_always_clamped_witness :
    (1/10 : ℚ) ≤ initApp.img.scale ∧ initApp.img.scale ≤ 3 ∧
    (1/10 ≤ (run initApp [Event.scroll ScrollDir.down]).img.scale ∧
     (run initApp [Event.scroll ScrollDir.down]).img.scale ≤ 3 ∧
     (run initApp [Event.scroll ScrollDir.down]).img.scale ≠ 0) :=
  ⟨by norm_num [initApp, initImageState],
   by norm_num [initApp, initImageState],
   scale_always_clamped [Event.scroll ScrollDir.down] initApp
     (by norm_num [initApp, initImageState])
     (by norm_num [initApp, initImageState])⟩

/-- C4: 40 scroll-up events from the default scale `1.0` saturate at exactly
`3.0`, and no number of scroll-up events pushes the scale above `3.0`. -/
theorem scroll_up_saturates :
    (run initApp (List.replicate 40 (Event.scroll ScrollDir.up))).img.scale = 3 ∧
    ∀ n : ℕ,
      (run initApp (List.replicate n (Event.scroll ScrollDir.up))).img.scale ≤ 3 := by
  constructor
  · rw [show (40 : ℕ) = 39 + 1 from rfl, scroll_up_replicate 39 initApp]
    have h5 : initApp.img.scale + (((39 : ℕ) : ℚ) + 1) * SCALE_DELTA = 5 := by
      norm_num [initApp, initImageState, SCALE_DELTA]
    rw [h5, SCALE_MAX, min_eq_right (by norm_num)]
  · intro n
    cases n with
    | zero => norm_num [run, initApp, initImageState]
    | succ m =>
        rw [scroll_up_replicate m initApp]
        exact le_trans (min_le_right _ _) (by norm_num [SCALE_MAX])

/-- C5: a highlight key-release while `highlight` is already `false` leaves
the whole session state — scale, offset, pointer position, highlight flag
and drag anchor — unchanged. -/
theorem highlight_release_idempotent (a : AppState)
    (h : a.img.highlight = false) :
    step a (Event.keyRelease (some HIGHLIGHT_KEY)) = a := by
  obtain ⟨⟨s, o, m, hl⟩, lp⟩ := a
  simp only at h
  subst h
  rfl

/-- Witness for C5: the default state has `highlight = false` and absorbs a
highlight key-release. -/
theorem highlight_release_idempotent_witness :
    initApp.img.highlight = false ∧
      step initApp (Event.keyRelease (some HIGHLIGHT_KEY)) = initApp :=
  ⟨rfl, highlight_release_idempotent initApp rfl⟩

/-- C10: releasing any pointer button — here an arbitrary button number —
clears the drag anchor, and the following motion event with the primary
button still held does not change the offset; it only re-establishes the
anchor at the new pointer position. -/
theorem any_button_release_clears_anchor (a : AppState) (b : ℕ)
    (lp p : ℚ × ℚ) (h : a.lastPos = some lp) :
    (step a (Event.buttonRelease b)).lastPos = none ∧
    (step (step a (Event.buttonRelease b)) (Event.motion p true)).img.offset
      = a.img.offset ∧
    (step (step a (Event.buttonRelease b)) (Event.motion p true)).lastPos
      = some p := by
  obtain ⟨⟨s, o, m, hl⟩, lp'⟩ := a
  exact ⟨rfl, rfl, rfl⟩

/-- Witness for C10: a concrete mid-drag state, a release of button 3, then
a motion with the primary button held. -/
theorem any_button_release_clears_anchor_witness :
    (⟨initImageState, some ((1 : ℚ), (1 : ℚ))⟩ : AppState).lastPos
        = some ((1 : ℚ), (1 : ℚ)) ∧
    ((step (⟨initImageState, some ((1 : ℚ), (1 : ℚ))⟩ : AppState)
        (Event.buttonRelease 3)).lastPos = none ∧
     (step (step (⟨initImageState, some ((1 : ℚ), (1 : ℚ))⟩ : AppState)
          (Event.buttonRelease 3)) (Event.motion ((4 : ℚ), (5 : ℚ)) true)).img.offset
        = (⟨initImageState, some ((1 : ℚ), (1 : ℚ))⟩ : AppState).img.offset ∧
     (step (step (⟨initImageState, some ((1 : ℚ), (1 : ℚ))⟩ : AppState)
          (Event.buttonRelease 3)) (Event.motion ((4 : ℚ), (5 : ℚ)) true)).lastPos
        = some ((4 : ℚ), (5 : ℚ))) :=
  ⟨rfl, any_button_release_clears_anchor
    ⟨initImageState, some ((1 : ℚ), (1 : ℚ))⟩ 3 ((1 : ℚ), (1 : ℚ))
    ((4 : ℚ), (5 : ℚ)) rfl⟩

/-- C6: a full drag — primary-button press, a nonempty run of motion events
with the button held, primary-button release — changes the offset by exactly
the negated total displacement accumulated across the motion events (from the
first motion position to the last), and leaves the drag anchor clear. -/
theorem drag_round_trip (w : World) (p : ℚ × ℚ) (ps : List (ℚ × ℚ))
    (h : w.app.lastPos = none) :
    (worldRun w (WEvent.buttonPress 1
        :: ((p :: ps).map WEvent.motion ++ [WEvent.buttonRelease 1]))).app.img.offset.1
      = w.app.img.offset.1 - ((ps.getLastD p).1 - p.1) ∧
    (worldRun w (WEvent.buttonPress 1
        :: ((p :: ps).map WEvent.motion ++ [WEvent.buttonRelease 1]))).app.img.offset.2
      = w.app.img.offset.2 - ((ps.getLastD p).2 - p.2) ∧
    (worldRun w (WEvent.buttonPress 1
        :: ((p :: ps).map WEvent.motion ++ [WEvent.buttonRelease 1]))).app.lastPos
      = none := by
  have h0 : worldRun w (WEvent.buttonPress 1
        :: ((p :: ps).map WEvent.motion ++ [WEvent.buttonRelease 1]))
      = worldRun (worldStep w (WEvent.buttonPress 1))
          ((p :: ps).map WEvent.motion ++ [WEvent.buttonRelease 1]) := rfl
  have hpress : worldStep w (WEvent.buttonPress 1) = ⟨w.app, true⟩ := by
    simp [worldStep]
  have hsplit : worldRun (⟨w.app, true⟩ : World)
        ((p :: ps).map WEvent.motion ++ [WEvent.buttonRelease 1])
      = worldStep (worldRun ⟨w.app, true⟩ ((p :: ps).map WEvent.motion))
          (WEvent.buttonRelease 1) := by
    show List.foldl worldStep (⟨w.app, true⟩ : World) _ = _
    rw [List.foldl_append]
    rfl
  have hm1 : worldRun (⟨w.app, true⟩ : World) ((p :: ps).map WEvent.motion)
      = worldRun ⟨step w.app (Event.motion p true), true⟩
          (ps.map WEvent.motion) := rfl
  have hfirst := step_motion_none w.app p h
  have hmap := worldRun_motion_map ps
    (⟨⟨⟨w.app.img.scale, w.app.img.offset, p, w.app.img.highlight⟩,
        some p⟩, true⟩ : World) rfl
  have haccum := run_motion_accum ps
    ⟨⟨w.app.img.scale, w.app.img.offset, p, w.app.img.highlight⟩, some p⟩
    p rfl
  have hfirst' : (⟨step w.app (Event.motion p true), true⟩ : World)
      = ⟨⟨⟨w.app.img.scale, w.app.img.offset, p, w.app.img.highlight⟩,
          some p⟩, true⟩ := by
    rw [hfirst]
  rw [h0, hpress, hsplit, hm1, hfirst', hmap]
  refine ⟨?_, ?_, rfl⟩
  · show (run ⟨⟨w.app.img.scale, w.app.img.offset, p, w.app.img.highlight⟩,
        some p⟩ (ps.map (fun q => Event.motion q true))).img.offset.1 = _
    rw [haccum.1]
    ring
  · show (run ⟨⟨w.app.img.scale, w.app.img.offset, p, w.app.img.highlight⟩,
        some p⟩ (ps.map (fun q => Event.motion q true))).img.offset.2 = _
    rw [haccum.2.1]
    ring

/-- Witness for C6: from the initial world, press, move to `(1, 2)` then
`(4, 6)`, release; the offset moves by `-(3, 4)` and the anchor is clear. -/
theorem drag_round_trip_witness :
    initWorld.app.lastPos = none ∧
    (worldRun initWorld (WEvent.buttonPress 1
        :: ((((1 : ℚ), (2 : ℚ)) :: [((4 : ℚ), (6 : ℚ))]).map WEvent.motion
          ++ [WEvent.buttonRelease 1]))).app.img.offset = (-3, -4) ∧
    (worldRun initWorld (WEvent.buttonPress 1
        :: ((((1 : ℚ), (2 : ℚ)) :: [((4 : ℚ), (6 : ℚ))]).map WEvent.motion
          ++ [WEvent.buttonRelease 1]))).app.lastPos = none := by
  have h := drag_round_trip initWorld ((1 : ℚ), (2 : ℚ)) [((4 : ℚ), (6 : ℚ))] rfl
  refine ⟨rfl, ?_, h.2.2⟩
  have h1 := h.1
  have h2 := h.2.1
  norm_num [initWorld, initApp, initImageState, List.getLastD] at h1 h2
  exact Prod.ext h1 h2

/-- One world-level event preserves the implication "drag anchor set implies
primary button held". -/
lemma anchor_inv_step (w : World) (e : WEvent)
    (h : w.app.lastPos ≠ none → w.button1Held = true) :
    (worldStep w e).app.lastPos ≠ none → (worldStep w e).button1Held = true := by
  cases e with
  | keyPress k =>
      intro hne
      apply h
      intro hnone
      apply hne
      show (step w.app (Event.keyPress k)).lastPos = none
      cases k with
      | none => exact hnone
      | some k =>
          simp only [step]
          split
          · exact hnone
          · split
            · exact hnone
            · exact hnone
  | keyRelease k =>
      intro hne
      apply h
      intro hnone
      apply hne
      show (step w.app (Event.keyRelease k)).lastPos = none
      simp only [step]
      split
      · exact hnone
      · exact hnone
  | scroll d =>
      intro hne
      apply h
      intro hnone
      apply hne
      show (step w.app (Event.scroll d)).lastPos = none
      cases d <;> exact hnone
  | motion pos =>
      intro hne
      show w.button1Held = true
      cases hb : w.button1Held with
      | true => rfl
      | false =>
          exfalso
          have hne' : w.app.lastPos ≠ none := by
            intro hnone
            apply hne
            show (step w.app (Event.motion pos w.button1Held)).lastPos = none
            rw [hb]
            show w.app.lastPos = none
            exact hnone
          have hcontra := h hne'
          rw [hb] at hcontra
          exact Bool.noConfusion hcontra
  | buttonPress b =>
      intro hne
      show (if b = 1 then true else w.button1Held) = true
      by_cases hb : b = 1
      · simp [hb]
      · simp only [if_neg hb]
        exact h hne
  | buttonRelease b =>
      intro hne
      exact absurd rfl hne

/-- Every world-level event sequence preserves the implication "drag anchor
set implies primary button held". -/
lemma anchor_inv_run (evts : List WEvent) (w : World)
    (h : w.app.lastPos ≠ none → w.button1Held = true) :
    (worldRun w evts).app.lastPos ≠ none → (worldRun w evts).button1Held = true := by
  induction evts generalizing w with
  | nil => exact h
  | cons e es ih => exact ih (worldStep w e) (anchor_inv_step w e h)

/-- C7 counterexample: after a primary-button press (a reachable state), the
button is held while the drag anchor is still `none`, so "anchor is none iff
the primary button is not held" is false in this reachable state. -/
theorem drag_anchor_iff_fails :
    ¬ ((worldRun initWorld [WEvent.buttonPress 1]).app.lastPos = none ↔
       (worldRun initWorld [WEvent.buttonPress 1]).button1Held = false) := by
  decide

/-- C7 (amended): in every state reachable from the initial world, a set drag
anchor implies the primary button is currently held; the converse direction of
the claimed equivalence fails immediately after a button press, before the
first motion event. -/
theorem drag_anchor_implies_button_held (evts : List WEvent)
    (h : (worldRun initWorld evts).app.lastPos ≠ none) :
    (worldRun initWorld evts).button1Held = true :=
  anchor_inv_run evts initWorld (fun hne => absurd rfl hne) h

/-- Witness for C7 (amended): press then motion reaches a state with a set
anchor, and there the primary button is held. -/
theorem drag_anchor_implies_button_held_witness :
    (worldRun initWorld [WEvent.buttonPress 1,
        WEvent.motion ((2 : ℚ), (3 : ℚ))]).app.lastPos ≠ none ∧
    (worldRun initWorld [WEvent.buttonPress 1,
        WEvent.motion ((2 : ℚ), (3 : ℚ))]).button1Held = true :=
  ⟨by decide, drag_anchor_implies_button_held
    [WEvent.buttonPress 1, WEvent.motion ((2 : ℚ), (3 : ℚ))] (by decide)⟩

/-- C1: evaluation at a non-square failing input. For a 4×2 source at scale
2, the draw closure computes the pre-pan `y` from the widths (`pb_height` and
`new_pb_height` are assigned from `.width()` in the source), giving `-2`,
while the spec's height-aware centering formula gives `-1`. -/
theorem blit_y_uses_width_not_height :
    (blitBase ⟨4, 2⟩ (scaleSimpleDims ⟨4, 2⟩ 2)).2 = -2 ∧
    (specBlitBase ⟨4, 2⟩ 2).2 = -1 ∧
    (blitBase ⟨4, 2⟩ (scaleSimpleDims ⟨4, 2⟩ 2)).2
      ≠ (specBlitBase ⟨4, 2⟩ 2).2 := by
  have h8 : f64AsI32 (((4 : ℤ) : ℚ) * 2) = 8 := by
    rw [f64AsI32, if_pos (by norm_num)]
    norm_num [i32Min, i32Max]
  refine ⟨?_, ?_, ?_⟩
  · show (blitBase ⟨4, 2⟩ ⟨f64AsI32 (((4 : ℤ) : ℚ) * 2),
        f64AsI32 (((2 : ℤ) : ℚ) * 2)⟩).2 = -2
    rw [blitBase]
    simp only [h8]
    norm_num
  · norm_num [specBlitBase]
  · show (blitBase ⟨4, 2⟩ ⟨f64AsI32 (((4 : ℤ) : ℚ) * 2),
        f64AsI32 (((2 : ℤ) : ℚ) * 2)⟩).2 ≠ _
    rw [blitBase]
    simp only [h8]
    norm_num [specBlitBase]

/-- C2 counterexample: a concrete render request in which resampling fails —
the draw closure issues no operations at all, in particular no background
fill and no paint, because the background fill sits inside the
`if let Some(new_pb)` in the source. -/
theorem scale_failure_skips_background :
    connectDraw ⟨1920, 1080⟩ initImageState none = [] ∧
    DrawOp.paintOp ∉ connectDraw ⟨1920, 1080⟩ initImageState none :=
  ⟨rfl, by decide⟩

/-- C2 (amended): for every source image and state, a failed resampling makes
the draw closure skip every drawing step, background fill included — the
frame gets no drawing operations — and the draw callback still returns
normally, so the session does not abort. -/
theorem scale_failure_draws_nothing (src : Pixbuf) (st : ImageState) :
    connectDraw src st none = [] := rfl

/-- C8: at scale `1` and offset `(0, 0)`, the position passed to
`set_source_pixbuf` is `(0, 0)` for every source image whose width is a
positive `i32`, i.e. the unscaled image is drawn unshifted. -/
theorem blit_identity_at_unit_scale (src : Pixbuf) (st : ImageState)
    (hw1 : 0 < src.width) (hw2 : src.width ≤ i32Max)
    (hs : st.scale = 1) (ho : st.offset = (0, 0)) :
    blitPosition src (scaleSimpleDims src st.scale) st = (0, 0) := by
  have h0 : (0 : ℚ) ≤ (src.width : ℚ) := by exact_mod_cast hw1.le
  have hdim : (scaleSimpleDims src st.scale).width = src.width := by
    rw [hs]
    show f64AsI32 ((src.width : ℚ) * 1) = src.width
    rw [mul_one, f64AsI32, if_pos h0, Int.floor_intCast,
      min_eq_right hw2,
      max_eq_right (le_trans (by norm_num [i32Min]) hw1.le)]
  simp [blitPosition, blitBase, hdim, ho]

/-- Witness for C8: a 1920×1080 source at the default state. -/
theorem blit_identity_at_unit_scale_witness :
    (0 : ℤ) < (⟨1920, 1080⟩ : Pixbuf).width ∧
    (⟨1920, 1080⟩ : Pixbuf).width ≤ i32Max ∧
    initImageState.scale = 1 ∧ initImageState.offset = (0, 0) ∧
    blitPosition ⟨1920, 1080⟩
      (scaleSimpleDims ⟨1920, 1080⟩ initImageState.scale) initImageState
      = (0, 0) :=
  ⟨by decide, by decide, rfl, rfl,
   blit_identity_at_unit_scale ⟨1920, 1080⟩ initImageState
     (by decide) (by decide) rfl rfl⟩

/-- C9: the startup selection takes the first focused output, and an output
list with no focused entry fails with `Error::NoOutput`, which makes `main`
return `Err` and the process exit nonzero. -/
theorem focused_output_selection :
    selectFocusedOutput [⟨"eDP-1", false⟩, ⟨"HDMI-1", true⟩]
        = Except.ok "HDMI-1" ∧
    selectFocusedOutput [⟨"eDP-1", false⟩]
        = Except.error StartupError.noOutput ∧
    exitCodeOf (selectFocusedOutput [⟨"eDP-1", false⟩]) ≠ 0 :=
  ⟨rfl, rfl, by decide⟩

end SwayBoomer
